import Mathlib

/-!
Shallow embedding of the muOS Pokémon randomizer front-end
(src/input.py, src/models.py, src/gui_components.py, src/view.py),
with theorems settling the specification claims about it.

Machine time is modelled in milliseconds as `Nat`; Python sets are
modelled as lists with membership semantics; the Python dict
`_keys_held_start_time` is modelled as an association list.
-/

namespace PokeRand

/-- `ControllerButton` from src/input.py: the enumerated controller buttons. -/
inductive ControllerButton where
  | A | B | X | Y | L1 | R1 | L3 | R3
  | SELECT | START | MENUF
  | DPAD_UP | DPAD_DOWN | DPAD_LEFT | DPAD_RIGHT
deriving DecidableEq, Repr

/-! ## Input tracker (src/input.py, class Input)

`_keys_pressed` and `_keys_held` are Python sets; `_keys_held_start_time`
is a Python dict from button to press time.  `_initial_delay` is 0.35 s;
we work in milliseconds, so the delay is 350. -/

/-- Set insertion for the list-as-set model (Python `set.add`). -/
def setAdd (l : List ControllerButton) (k : ControllerButton) : List ControllerButton :=
  if k ∈ l then l else k :: l

/-- Set removal (Python `set.discard`). -/
def setDiscard (l : List ControllerButton) (k : ControllerButton) : List ControllerButton :=
  l.filter (fun b => b ≠ k)

/-- Dict lookup (Python `d[k]` / `d.get(k)`), for `_keys_held_start_time`. -/
def dictGet (d : List (ControllerButton × Nat)) (k : ControllerButton) : Option Nat :=
  (d.find? (fun p => p.1 = k)).map Prod.snd

/-- Dict assignment `d[k] = v`: replaces any previous binding of `k`. -/
def dictSet (d : List (ControllerButton × Nat)) (k : ControllerButton) (v : Nat) :
    List (ControllerButton × Nat) :=
  (k, v) :: d.filter (fun p => p.1 ≠ k)

/-- Dict removal (Python `d.pop(k, None)`). -/
def dictPop (d : List (ControllerButton × Nat)) (k : ControllerButton) :
    List (ControllerButton × Nat) :=
  d.filter (fun p => p.1 ≠ k)

/-- The key-repeat initial delay: `self._initial_delay = 0.35` seconds, in ms. -/
def initialDelay : Nat := 350

/-- The mutable state of `Input`: `_keys_pressed`, `_keys_held`,
`_keys_held_start_time`. -/
structure InputState where
  keysPressed : List ControllerButton
  keysHeld : List ControllerButton
  keysHeldStartTime : List (ControllerButton × Nat)
deriving Repr

/-- The freshly constructed input state (`Input.__init__`). -/
def InputState.init : InputState := ⟨[], [], []⟩

/-- `Input._add_key_pressed(key)` at time `now`: adds the key to the pressed
and held sets and records `time.time()` as the hold-start time
(unconditionally, even if the key was already held). -/
def addKeyPressed (s : InputState) (k : ControllerButton) (now : Nat) : InputState :=
  { keysPressed := setAdd s.keysPressed k
    keysHeld := setAdd s.keysHeld k
    keysHeldStartTime := dictSet s.keysHeldStartTime k now }

/-- `Input._remove_key_held(key)`: discards the key from the held set and
pops its hold-start time.  The pressed set is not touched. -/
def removeKeyHeld (s : InputState) (k : ControllerButton) : InputState :=
  { keysPressed := s.keysPressed
    keysHeld := setDiscard s.keysHeld k
    keysHeldStartTime := dictPop s.keysHeldStartTime k }

/-- `Input.key(key)` at time `now`.  Returns the boolean result (or `none`
for the `KeyError` the source would raise if the key were held without a
recorded start time) together with the updated state: the transient
pressed flag for the key is consumed first, then the held/delay test runs. -/
def keyCheck (s : InputState) (k : ControllerButton) (now : Nat) :
    Option Bool × InputState :=
  let isPressed := k ∈ s.keysPressed
  let s' : InputState := { s with keysPressed := setDiscard s.keysPressed k }
  if k ∈ s.keysHeld then
    match dictGet s.keysHeldStartTime k with
    | some t => (some (isPressed || decide (initialDelay ≤ now - t)), s')
    | none => (none, s')
  else
    (some (decide isPressed), s')

/-- `Input.clear_pressed()`: clears the pressed set, keeps held state. -/
def clearPressed (s : InputState) : InputState :=
  { s with keysPressed := [] }

/-- One externally visible operation on the tracker, for reasoning about
arbitrary operation sequences. -/
inductive InputOp where
  | press (k : ControllerButton) (now : Nat)
  | release (k : ControllerButton)
  | check (k : ControllerButton) (now : Nat)
  | endFrame
deriving Repr

/-- Apply one tracker operation to the state. -/
def applyOp (s : InputState) : InputOp → InputState
  | .press k now => addKeyPressed s k now
  | .release k => removeKeyHeld s k
  | .check k now => (keyCheck s k now).2
  | .endFrame => clearPressed s

/-- Run a sequence of tracker operations from a state. -/
def runOps (s : InputState) : List InputOp → InputState
  | [] => s
  | op :: ops => runOps (applyOp s op) ops

/-- A hold-start time is recorded for a button iff the button is held. -/
def timeIffHeld (s : InputState) : Prop :=
  ∀ k, (dictGet s.keysHeldStartTime k).isSome = true ↔ k ∈ s.keysHeld

/-- Every just-pressed button is also held. -/
def pressedSubHeld (s : InputState) : Prop :=
  ∀ k, k ∈ s.keysPressed → k ∈ s.keysHeld

/-! ## Data models (src/models.py) -/

/-! The UI glyph strings from `models.Glyphs` that appear in tree-node
names and log messages. -/

namespace Glyphs

def HEART : String := ""
def EXCLAMATION : String := ""
def FILE : String := ""
def FOLDER : String := ""
def SD_CARD : String := ""

end Glyphs

/-- `models.TreeNode`: one filesystem entry in the ROM browser tree.
Paths are modelled as strings. -/
inductive TreeNode where
  | mk (name : String) (is_file : Bool) (path : String) (children : List TreeNode)
deriving Repr

def TreeNode.name : TreeNode → String
  | .mk n _ _ _ => n

def TreeNode.is_file : TreeNode → Bool
  | .mk _ f _ _ => f

def TreeNode.path : TreeNode → String
  | .mk _ _ p _ => p

def TreeNode.children : TreeNode → List TreeNode
  | .mk _ _ _ c => c

/-- `models.Step`. -/
inductive Step where
  | SELECT_ROM
  | RANDOMIZE_ROM
deriving DecidableEq, Repr

/-- `models.ExitMenuStatus`.  The source field `show` is named `showMenu`
here because `show` is a Lean keyword. -/
structure ExitMenuStatus where
  exit : Bool := false
  showMenu : Bool := false
  selected_item : Int := 1
deriving DecidableEq, Repr

/-- `models.RandomizeROMStatus`. -/
structure RandomizeROMStatus where
  is_running : Bool := false
  is_finished : Bool := false
  logs : String := ""
deriving DecidableEq, Repr

/-! ## Filesystem tree construction (`SelectROMStatus._generate_tree`) -/

/-- An abstract filesystem entry: what `folder.iterdir()` yields, in
enumeration order.  A file is identified by its final-component name. -/
inductive FSEntry where
  | file (name : String)
  | dir (name : String) (entries : List FSEntry)
deriving Repr

/-- The contents of the two candidate mount roots: `none` models a mount
path for which `.exists()` is false. -/
structure FileSystem where
  sd1 : Option (List FSEntry)
  sd2 : Option (List FSEntry)

def sd1Path : String := "/mnt/mmc/ROMS"
def sd2Path : String := "/mnt/sdcard/ROMS"

/-- Python `str.lower()`, character by character (the library
`String.toLower` is extensionally the same but is not kernel-reducible,
so concrete witnesses could not be evaluated through it). -/
def strToLower (s : String) : String :=
  String.mk (s.toList.map Char.toLower)

/-- `pathlib.PurePath.suffix` of a final-component name: the substring
from the last dot, provided that dot is neither the first nor the last
character; otherwise the empty string. -/
def pathSuffix (name : String) : String :=
  let cs := name.toList
  match ((List.range cs.length).filter (fun i => cs.get? i = some '.')).getLast? with
  | some i => if 0 < i ∧ i + 1 < cs.length then String.mk (cs.drop i) else ""
  | none => ""

/-- The ROM extension allow-list from `_generate_tree`. -/
def romExtensions : List String := [".gba", ".gbc", ".gb"]

/-- `SelectROMStatus._is_empty_child`: a non-file node with an empty child
list. -/
def isEmptyChild (child : TreeNode) : Bool :=
  !child.is_file && child.children.isEmpty

/-- The recursive branch of `SelectROMStatus._generate_tree` (the
`folder is not None` case): walks the entries of `folder` in order,
recursing into directories and pruning those that come back empty, and
keeping files whose lower-cased suffix is in the allow-list. -/
def generateTree (parentPath : String) : List FSEntry → List TreeNode
  | [] => []
  | .dir name sub :: rest =>
      let child : TreeNode :=
        .mk (Glyphs.FOLDER ++ " " ++ name ++ "/") false (parentPath ++ "/" ++ name)
          (generateTree (parentPath ++ "/" ++ name) sub)
      (if isEmptyChild child then [] else [child]) ++ generateTree parentPath rest
  | .file name :: rest =>
      (if strToLower (pathSuffix name) ∈ romExtensions then
        [TreeNode.mk (Glyphs.FILE ++ " " ++ name) true (parentPath ++ "/" ++ name) []]
      else []) ++ generateTree parentPath rest

/-- The top-level branch of `_generate_tree` (the `folder is None` case):
one candidate child per existing mount root, pruned if empty. -/
def generateTreeRoot (fs : FileSystem) : List TreeNode :=
  (match fs.sd1 with
   | none => []
   | some entries =>
     let child : TreeNode :=
       .mk (Glyphs.SD_CARD ++ " SD1/") false sd1Path (generateTree sd1Path entries)
     if isEmptyChild child then [] else [child]) ++
  (match fs.sd2 with
   | none => []
   | some entries =>
     let child : TreeNode :=
       .mk (Glyphs.SD_CARD ++ " SD2/") false sd2Path (generateTree sd2Path entries)
     if isEmptyChild child then [] else [child])

/-- The synthetic root built in `SelectROMStatus.__init__` /
`reload_tree`. -/
def buildTree (fs : FileSystem) : TreeNode :=
  .mk "root" false "/" (generateTreeRoot fs)

/-- `models.SelectROMStatus`.  `current_selection` is an `Int` because the
source can drive it to -1 on an empty child list. -/
structure SelectROMStatus where
  tree : TreeNode
  selected_rom : Option String := none
  selections : List TreeNode := []
  current_selection : Int := 0
  current_dir : TreeNode
deriving Repr

/-- `SelectROMStatus.__init__`: builds the tree and points `current_dir`
at it. -/
def SelectROMStatus.init (fs : FileSystem) : SelectROMStatus :=
  let tree := buildTree fs
  { tree := tree, current_dir := tree }

/-- `models.AppStatus`. -/
structure AppStatus where
  current_step : Step := .SELECT_ROM
  exit_menu_status : ExitMenuStatus := {}
  select_rom_status : SelectROMStatus
  randomize_rom_status : RandomizeROMStatus := {}
deriving Repr

/-- `AppStatus.next_step`: SELECT_ROM advances to RANDOMIZE_ROM;
RANDOMIZE_ROM stays at RANDOMIZE_ROM. -/
def AppStatus.next_step (s : AppStatus) : AppStatus :=
  match s.current_step with
  | .SELECT_ROM => { s with current_step := .RANDOMIZE_ROM }
  | .RANDOMIZE_ROM => { s with current_step := .RANDOMIZE_ROM }

/-- `AppStatus.previous_step`: from RANDOMIZE_ROM, rebuilds the tree from
the (current) filesystem, resets the selection state and the
randomization run state, and moves to SELECT_ROM; otherwise no-op. -/
def AppStatus.previous_step (fs : FileSystem) (s : AppStatus) : AppStatus :=
  match s.current_step with
  | .RANDOMIZE_ROM =>
    let tree := buildTree fs
    { s with
      select_rom_status :=
        { tree := tree
          current_dir := tree
          selections := []
          selected_rom := none
          current_selection := 0 }
      randomize_rom_status := { is_running := false, is_finished := false, logs := "" }
      current_step := .SELECT_ROM }
  | .SELECT_ROM => s

/-! ## Randomization worker (src/gui_components.py, `RandomizeROM._patch_rom`)

The worker body is embedded as a function of the randomization run state
and an environment describing what the filesystem and the external
process do during this run.  The returned `Bool` is true exactly when an
exception escapes the worker body (the source has no try/except around
the code before the `subprocess.run` block). -/

/-- Environment of one `_patch_rom` run: outcomes of the filesystem
checks, the copy steps, the external invocation, and the temp-directory
scan. -/
structure PatchEnv where
  /-- `orig_rom_path.exists()` -/
  romExists : Bool
  /-- `orig_rom_path.suffix` -/
  origSuffix : String
  /-- whether `copyfile(orig_rom_path, src_rom_path)` succeeds (it is not
  inside any try block; on failure the exception escapes) -/
  copySucceeds : Bool
  /-- `config_path.exists()` -/
  configExists : Bool
  /-- `bin_path.exists()` -/
  binExists : Bool
  /-- `datetime.now().strftime("%Y%m%d%H%M%S")` -/
  now : String
  /-- whether `subprocess.run(..., check=True)` succeeds -/
  processSucceeds : Bool
  /-- the exception text when the invocation fails -/
  processError : String
  /-- whether the `temp_dir_path.iterdir()` scan succeeds (inside the try) -/
  scanSucceeds : Bool
  /-- the exception text when the scan fails -/
  scanError : String
  /-- the files found in the temp directory other than `src_rom_path` -/
  outputFiles : List String
  /-- whether `copyfile(dst_rom_path, out_rom_path)` succeeds (inside the try) -/
  finalCopySucceeds : Bool
  /-- the exception text when that copy fails -/
  finalCopyError : String

/-- Python `str.strip(".")`: removes leading and trailing dots. -/
def stripDots (s : String) : String :=
  String.mk (((s.toList.dropWhile (· = '.')).reverse.dropWhile (· = '.')).reverse)

/-- `Path(__file__).parent / "configs" / f"{rom_extension}.rnqs"`,
relative to the module directory. -/
def configPath (ext : String) : String :=
  "configs/" ++ ext ++ ".rnqs"

/-- `Path(__file__).parent / "3rd-party" / "PokeRandoZX.jar"`, relative
to the module directory. -/
def binPath : String :=
  "3rd-party/PokeRandoZX.jar"

/-- `p.with_suffix(newSuffix)` for a path `p` whose current suffix is
`oldSuffix`. -/
def withSuffix (p oldSuffix newSuffix : String) : String :=
  p.dropRight oldSuffix.length ++ newSuffix

/-- `RandomizeROM._patch_rom(status)`: returns the updated randomization
run state and whether an exception escaped the worker body.  `selectedRom`
is `status.select_rom_status.selected_rom`. -/
def patchRom (env : PatchEnv) (selectedRom : Option String)
    (st : RandomizeROMStatus) : RandomizeROMStatus × Bool :=
  match selectedRom with
  | none =>
      ({ st with logs := "No ROM selected.", is_running := false }, false)
  | some orig =>
    if !env.romExists then
      ({ st with logs := "ROM not found: " ++ orig, is_running := false }, false)
    else if !env.copySucceeds then
      (st, true)
    else
      let ext := stripDots (strToLower env.origSuffix)
      if !env.configExists then
        ({ st with
            logs := "No configuration found for " ++ ext ++ " files:\n " ++ configPath ext
            is_running := false }, false)
      else if !env.binExists then
        ({ st with
            logs := "Randomizer binary not found: " ++ binPath
            is_running := false }, false)
      else
        let outRomPath := withSuffix orig env.origSuffix
          (".randomized." ++ env.now ++ "." ++ ext)
        let st1 : RandomizeROMStatus :=
          { st with logs := st.logs ++ (Glyphs.EXCLAMATION ++ " Starting randomization") ++ "\n" }
        let attempt : Except String String :=
          if !env.processSucceeds then .error env.processError
          else if !env.scanSucceeds then .error env.scanError
          else if env.outputFiles.length ≠ 1 then
            .error ("Expected one file in output directory, but found " ++
              toString env.outputFiles.length ++ ": [" ++
              String.intercalate ", " env.outputFiles ++ "]")
          else if !env.finalCopySucceeds then .error env.finalCopyError
          else .ok outRomPath
        match attempt with
        | .ok out =>
          ({ st1 with
              logs := st1.logs ++ ("[SUCCESS] Randomization completed " ++ Glyphs.HEART ++
                ".\nRandomized ROM saved to: " ++ out) ++ "\n"
              is_running := false
              is_finished := true }, false)
        | .error e =>
          ({ st1 with
              logs := st1.logs ++ ("[ERROR] Randomization failed: " ++ e) ++ "\n"
              is_running := false
              is_finished := true }, false)

/-- Which environments make the run fail one of the four validation
checks (no ROM selected, ROM missing, config missing, binary missing). -/
def validationFails (env : PatchEnv) (selectedRom : Option String) : Prop :=
  selectedRom = none ∨
    (selectedRom.isSome ∧ env.romExists = false) ∨
    (selectedRom.isSome ∧ env.romExists = true ∧ env.copySucceeds = true ∧
      env.configExists = false) ∨
    (selectedRom.isSome ∧ env.romExists = true ∧ env.copySucceeds = true ∧
      env.configExists = true ∧ env.binExists = false)

/-- Which environments reach the external invocation. -/
def reachesInvocation (env : PatchEnv) (selectedRom : Option String) : Prop :=
  selectedRom.isSome ∧ env.romExists = true ∧ env.copySucceeds = true ∧
    env.configExists = true ∧ env.binExists = true

/-! ## RandomizeROM navigation (`RandomizeROM.handle_navigation`) -/

/-- The A-button branch of `RandomizeROM.handle_navigation`: under the
running/finished locks, a finished run returns unchanged; a non-running
run spawns the worker thread and sets the running flag.  The returned
`Bool` is true exactly when a new worker thread is spawned. -/
def randomizeNavA (st : RandomizeROMStatus) : RandomizeROMStatus × Bool :=
  if st.is_finished then (st, false)
  else if !st.is_running then ({ st with is_running := true }, true)
  else (st, false)

/-- The B-button branch of `RandomizeROM.handle_navigation`: under the
running lock, calls `previous_step` only when no run is in progress. -/
def randomizeNavB (fs : FileSystem) (s : AppStatus) : AppStatus :=
  if !s.randomize_rom_status.is_running then s.previous_step fs else s

/-! ## Exit menu navigation (`ExitMenu.handle_navigation` and
`View.handle_navigation`) -/

/-- Which of the input checks of a handler fires this frame (at most one,
since the source chains them with elif). -/
inductive NavEvent where
  | up | down | a | b | none
deriving DecidableEq, Repr

/-- The menu-button branch of `View.handle_navigation`: resets the
highlighted option to 1 and toggles overlay visibility. -/
def menuToggle (e : ExitMenuStatus) : ExitMenuStatus :=
  { e with selected_item := 1, showMenu := !e.showMenu }

/-- `ExitMenu.handle_navigation`: up/down move the highlight mod 2
(Python `%` on a negative value yields a non-negative result, as does
`Int.emod`); A applies the highlighted option and resets the highlight
to 1. -/
def exitMenuNav (ev : NavEvent) (e : ExitMenuStatus) : ExitMenuStatus :=
  match ev with
  | .up => { e with selected_item := (e.selected_item - 1) % 2 }
  | .down => { e with selected_item := (e.selected_item + 1) % 2 }
  | .a =>
    let e' := if e.selected_item = 0 then { e with exit := true }
              else { e with showMenu := false }
    { e' with selected_item := 1 }
  | _ => e

/-! ## SelectROM navigation (`SelectROM.handle_navigation`) -/

/-- Python list indexing `l[i]`: negative indices count from the end;
out-of-range access raises (modelled as `none`). -/
def pyGet {α : Type} (l : List α) (i : Int) : Option α :=
  if 0 ≤ i then
    if i < (l.length : Int) then l.get? i.toNat else Option.none
  else
    if -(l.length : Int) ≤ i then l.get? ((l.length : Int) + i).toNat else Option.none

/-- The re-walk in the B-branch of `SelectROM.handle_navigation`: from
the root, follow each remembered selection to the first child with an
equal path (staying put when none matches). -/
def walkSelections (root : TreeNode) (sels : List TreeNode) : TreeNode :=
  sels.foldl
    (fun cur entry =>
      match cur.children.find? (fun c => c.path = entry.path) with
      | some c => c
      | Option.none => cur)
    root

/-- `SelectROM.handle_navigation`: up/down move the highlight with
wraparound over the current directory's children; A selects the
highlighted child (file: set chosen ROM and advance step; directory:
descend); B ascends one level via the selection-path re-walk.  `none`
models an uncaught `IndexError` (list index on A, `list.pop()` on B). -/
def selectRomNav (ev : NavEvent) (s : AppStatus) : Option AppStatus :=
  match ev with
  | .up =>
    let sel := s.select_rom_status.current_selection - 1
    let sel := if sel < 0 then (s.select_rom_status.current_dir.children.length : Int) - 1
               else sel
    some { s with select_rom_status := { s.select_rom_status with current_selection := sel } }
  | .down =>
    let sel := s.select_rom_status.current_selection + 1
    let sel := if (s.select_rom_status.current_dir.children.length : Int) ≤ sel then 0
               else sel
    some { s with select_rom_status := { s.select_rom_status with current_selection := sel } }
  | .a =>
    match pyGet s.select_rom_status.current_dir.children
        s.select_rom_status.current_selection with
    | Option.none => Option.none
    | some child =>
      let s1 := { s with select_rom_status :=
        { s.select_rom_status with
          selections := s.select_rom_status.selections ++ [child] } }
      if child.is_file then
        some (AppStatus.next_step { s1 with select_rom_status :=
          { s1.select_rom_status with selected_rom := some child.path } })
      else
        match pyGet s1.select_rom_status.current_dir.children
            s1.select_rom_status.current_selection with
        | Option.none => Option.none
        | some child2 =>
          some { s1 with select_rom_status :=
            { s1.select_rom_status with current_dir := child2, current_selection := 0 } }
  | .b =>
    if s.select_rom_status.current_dir.path ≠ "/" then
      match s.select_rom_status.selections.getLast? with
      | Option.none => Option.none
      | some _ =>
        let sels := s.select_rom_status.selections.dropLast
        let cur := walkSelections s.select_rom_status.tree sels
        some { s with select_rom_status :=
          { s.select_rom_status with
            selections := sels
            current_dir := cur
            current_selection := 0 } }
    else some s
  | .none => some s

/-! ## Derived notions about trees, for the tree-invariant claims -/

/-- A node has a file somewhere beneath it (or is itself a file). -/
def hasFileDescendant : TreeNode → Bool
  | .mk _ isf _ children =>
      isf || children.attach.any (fun c => hasFileDescendant c.1)
decreasing_by
  have := List.sizeOf_lt_of_mem c.2
  simp only [TreeNode.mk.sizeOf_spec]
  omega

/-- `InTree n t`: `n` appears in a child list somewhere strictly inside
`t`. -/
inductive InTree : TreeNode → TreeNode → Prop where
  | child {n t : TreeNode} : n ∈ t.children → InTree n t
  | step {n c t : TreeNode} : c ∈ t.children → InTree n c → InTree n t

/-- `InResult n t`: `n` appears anywhere in the result tree `t`, the root
included. -/
def InResult (n t : TreeNode) : Prop :=
  n = t ∨ InTree n t

/-- The per-node facts the tree construction guarantees: a directory node
is never left with an empty child list, and a file node was produced from
an entry whose lower-cased suffix is in the ROM allow-list. -/
def GoodNode (n : TreeNode) : Prop :=
  (n.is_file = false → n.children ≠ []) ∧
  (n.is_file = true →
    ∃ nm, n.name = Glyphs.FILE ++ " " ++ nm ∧ strToLower (pathSuffix nm) ∈ romExtensions)

/-- `NodeOK n`: every node of the subtree rooted at `n` satisfies
`GoodNode`. -/
inductive NodeOK : TreeNode → Prop where
  | intro {n : TreeNode} : GoodNode n → (∀ c ∈ n.children, NodeOK c) → NodeOK n

/-! # Theorems -/

/-! ## Helper lemmas about the list-as-set and assoc-list-as-dict model -/

theorem find?_filter_of_imp {α : Type} (l : List α) (p q : α → Bool)
    (h : ∀ a, q a = true → p a = true) :
    (l.filter p).find? q = l.find? q := by
  induction l with
  | nil => rfl
  | cons a l ih =>
    by_cases hpa : p a = true
    · rw [List.filter_cons_of_pos hpa]
      by_cases hqa : q a = true
      · simp [List.find?, hqa]
      · simp [List.find?, hqa, ih]
    · have hqa : q a = false := by
        cases hq : q a
        · rfl
        · exact absurd (h a hq) hpa
      rw [List.filter_cons_of_neg (by simp [hpa])]
      simp [List.find?, hqa, ih]

theorem dictGet_dictSet_self (d : List (ControllerButton × Nat))
    (k : ControllerButton) (v : Nat) :
    dictGet (dictSet d k v) k = some v := by
  simp [dictGet, dictSet, List.find?]

theorem dictGet_dictSet_ne (d : List (ControllerButton × Nat))
    (k k' : ControllerButton) (v : Nat) (h : k' ≠ k) :
    dictGet (dictSet d k v) k' = dictGet d k' := by
  unfold dictGet dictSet
  rw [List.find?_cons_of_neg _ (by simpa using Ne.symm h), find?_filter_of_imp]
  intro a ha
  simp only [decide_eq_true_eq] at ha
  simpa [ha] using h

theorem dictGet_dictPop_self (d : List (ControllerButton × Nat))
    (k : ControllerButton) :
    dictGet (dictPop d k) k = none := by
  unfold dictGet dictPop
  have hnone : (d.filter (fun p => decide (p.1 ≠ k))).find?
      (fun p => decide (p.1 = k)) = none := by
    rw [List.find?_eq_none]
    intro p hp
    rw [List.mem_filter] at hp
    simp only [decide_eq_true_eq]
    intro hk
    simp [hk] at hp
  rw [hnone]
  rfl

theorem dictGet_dictPop_ne (d : List (ControllerButton × Nat))
    (k k' : ControllerButton) (h : k' ≠ k) :
    dictGet (dictPop d k) k' = dictGet d k' := by
  unfold dictGet dictPop
  rw [find?_filter_of_imp]
  intro a ha
  simp only [decide_eq_true_eq] at ha
  simp [ha, h]

theorem mem_setAdd {l : List ControllerButton} {k k' : ControllerButton} :
    k' ∈ setAdd l k ↔ (k' = k ∨ k' ∈ l) := by
  unfold setAdd
  by_cases h : k ∈ l
  · rw [if_pos h]
    constructor
    · exact Or.inr
    · intro hc
      cases hc with
      | inl he => exact he ▸ h
      | inr hm => exact hm
  · rw [if_neg h]
    simp

theorem mem_setDiscard {l : List ControllerButton} {k k' : ControllerButton} :
    k' ∈ setDiscard l k ↔ (k' ∈ l ∧ k' ≠ k) := by
  simp [setDiscard]

theorem keyCheck_snd (s : InputState) (k : ControllerButton) (now : Nat) :
    (keyCheck s k now).2 = { s with keysPressed := setDiscard s.keysPressed k } := by
  unfold keyCheck
  dsimp only
  split
  · split <;> rfl
  · rfl

/-! ## C4: hold-start time on re-press -/

/-- C4 counterexample: pressing A at time 0 records hold-start 0 with A
held; a repeated press event at time 500 while A is still held changes
the recorded hold-start to 500 — `_add_key_pressed` re-assigns the start
time on every press event, so a re-press does reset the auto-repeat
timer, contradicting the claim. -/
theorem recordPress_repress_resets_holdStart :
    ControllerButton.A ∈ (addKeyPressed InputState.init .A 0).keysHeld ∧
    dictGet (addKeyPressed InputState.init .A 0).keysHeldStartTime .A = some 0 ∧
    dictGet (addKeyPressed (addKeyPressed InputState.init .A 0) .A 500).keysHeldStartTime .A
      = some 500 := by
  decide

/-- C4 (amended): every invocation of recordPress — first press or
re-press while already held — sets the recorded hold-start time to the
current time, so a re-press resets the auto-repeat timer. -/
theorem recordPress_sets_holdStart (s : InputState) (k : ControllerButton) (now : Nat) :
    dictGet (addKeyPressed s k now).keysHeldStartTime k = some now := by
  simp [addKeyPressed, dictGet_dictSet_self]

/-! ## C5: tracker state invariant -/

theorem timeIffHeld_applyOp {s : InputState} (h : timeIffHeld s) (op : InputOp) :
    timeIffHeld (applyOp s op) := by
  cases op with
  | press k now =>
    intro k'
    by_cases hk : k' = k
    · subst hk
      show (dictGet (dictSet s.keysHeldStartTime k' now) k').isSome = true ↔
        k' ∈ setAdd s.keysHeld k'
      rw [dictGet_dictSet_self, mem_setAdd]
      simp
    · show (dictGet (dictSet s.keysHeldStartTime k now) k').isSome = true ↔
        k' ∈ setAdd s.keysHeld k
      rw [dictGet_dictSet_ne _ _ _ _ hk, mem_setAdd, h k']
      simp [hk]
  | release k =>
    intro k'
    by_cases hk : k' = k
    · subst hk
      show (dictGet (dictPop s.keysHeldStartTime k') k').isSome = true ↔
        k' ∈ setDiscard s.keysHeld k'
      rw [dictGet_dictPop_self, mem_setDiscard]
      simp
    · show (dictGet (dictPop s.keysHeldStartTime k) k').isSome = true ↔
        k' ∈ setDiscard s.keysHeld k
      rw [dictGet_dictPop_ne _ _ _ hk, mem_setDiscard, h k']
      simp [hk]
  | check k now =>
    intro k'
    rw [applyOp, keyCheck_snd]
    exact h k'
  | endFrame =>
    intro k'
    exact h k'

theorem timeIffHeld_runOps (ops : List InputOp) :
    ∀ s, timeIffHeld s → timeIffHeld (runOps s ops) := by
  induction ops with
  | nil => exact fun _ h => h
  | cons op ops ih => exact fun s h => ih _ (timeIffHeld_applyOp h op)

/-- C5 counterexample: the operation sequence "press A, release A"
(a press event followed by a release event, before the frame ends or the
flag is consumed) leaves A in the just-pressed set but not in the held
set, because `_remove_key_held` does not touch `_keys_pressed`; so the
claimed invariant "every just-pressed button is also held" fails at this
state. -/
theorem tracker_press_release_breaks_pressed_in_held :
    ControllerButton.A ∈ (runOps InputState.init
      [InputOp.press .A 0, InputOp.release .A]).keysPressed ∧
    ControllerButton.A ∉ (runOps InputState.init
      [InputOp.press .A 0, InputOp.release .A]).keysHeld := by
  decide

/-- C5 (amended): after every sequence of tracker operations from the
initial state, a hold-start time is recorded for a button iff that
button is in the held set; the other half of the claimed invariant
(just-pressed ⊆ held) does not hold in general, since a release clears
held but not just-pressed. -/
theorem tracker_invariant_time_iff_held (ops : List InputOp) :
    timeIffHeld (runOps InputState.init ops) := by
  refine timeIffHeld_runOps ops InputState.init (fun k => ?_)
  simp [InputState.init, dictGet]

/-! ## C6: isActive semantics -/

/-- C6: `Input.key` returns true iff the button is in the just-pressed
set or has been held for at least the 350 ms initial delay, and it
consumes the just-pressed flag while leaving held state and hold-start
times untouched; consequently a freshly pressed button reads true on its
frame, false on later reads while held under the delay, and true again
once held at least 350 ms. -/
theorem isActive_spec :
    (∀ (s : InputState) (k : ControllerButton) (now t : Nat),
      (k ∈ s.keysHeld → dictGet s.keysHeldStartTime k = some t) →
      ∃ b, (keyCheck s k now).1 = some b ∧
        (b = true ↔ (k ∈ s.keysPressed ∨ (k ∈ s.keysHeld ∧ initialDelay ≤ now - t))) ∧
        k ∉ ((keyCheck s k now).2).keysPressed ∧
        ((keyCheck s k now).2).keysHeld = s.keysHeld ∧
        ((keyCheck s k now).2).keysHeldStartTime = s.keysHeldStartTime) ∧
    (∀ (k : ControllerButton) (t0 : Nat),
      (keyCheck (addKeyPressed InputState.init k t0) k t0).1 = some true) ∧
    (∀ (k : ControllerButton) (t0 n : Nat), n - t0 < initialDelay →
      (keyCheck ((keyCheck (addKeyPressed InputState.init k t0) k t0).2) k n).1
        = some false) ∧
    (∀ (k : ControllerButton) (t0 n : Nat), initialDelay ≤ n - t0 →
      (keyCheck ((keyCheck (addKeyPressed InputState.init k t0) k t0).2) k n).1
        = some true) := by
  refine ⟨?_, ?_, ?_, ?_⟩
  · intro s k now t ht
    have hsnd := keyCheck_snd s k now
    by_cases hheld : k ∈ s.keysHeld
    · refine ⟨decide (k ∈ s.keysPressed) || decide (initialDelay ≤ now - t),
        ?_, ?_, ?_, ?_, ?_⟩
      · simp [keyCheck, hheld, ht hheld]
      · simp [hheld]
      · rw [hsnd]; simp [mem_setDiscard]
      · rw [hsnd]
      · rw [hsnd]
    · refine ⟨decide (k ∈ s.keysPressed), ?_, ?_, ?_, ?_, ?_⟩
      · simp [keyCheck, hheld]
      · simp [hheld]
      · rw [hsnd]; simp [mem_setDiscard]
      · rw [hsnd]
      · rw [hsnd]
  · intro k t0
    simp [keyCheck, addKeyPressed, InputState.init, setAdd, dictSet, dictGet, List.find?]
  · intro k t0 n hn
    simp [keyCheck, addKeyPressed, InputState.init, setAdd, setDiscard, dictSet, dictGet,
      List.find?, initialDelay] at hn ⊢
    omega
  · intro k t0 n hn
    simp [keyCheck, addKeyPressed, InputState.init, setAdd, setDiscard, dictSet, dictGet,
      List.find?, initialDelay] at hn ⊢
    omega

/-- C6 witness: with button A pressed at time 0 and its just-pressed flag
already consumed at time 0, a read at time 400 (≥ 350 ms held) yields
true. -/
theorem isActive_spec_witness :
    (keyCheck ((keyCheck (addKeyPressed InputState.init .A 0) .A 0).2) .A 400).1
      = some true :=
  isActive_spec.2.2.2 .A 0 400 (by decide)

/-! ## C1: worker terminal states -/

/-- C1: starting a run that is not yet finished, every validation failure
(no ROM selected, ROM missing, config missing, binary missing) ends with
`is_running = false` and `is_finished = false`, and every run that
reaches the external invocation ends with `is_running = false` and
`is_finished = true`, whatever the invocation outcome; the missing-ROM
case leaves a log containing "ROM not found", a process failure appends
an "[ERROR]"-prefixed log line, and a successful invocation with exactly
one output file appends a "[SUCCESS]"-prefixed log line. -/
theorem patchRom_terminal_states (env : PatchEnv) (selectedRom : Option String)
    (st : RandomizeROMStatus) (hfin : st.is_finished = false) :
    (validationFails env selectedRom →
      (patchRom env selectedRom st).1.is_running = false ∧
      (patchRom env selectedRom st).1.is_finished = false) ∧
    (reachesInvocation env selectedRom →
      (patchRom env selectedRom st).1.is_running = false ∧
      (patchRom env selectedRom st).1.is_finished = true) ∧
    (∀ orig, selectedRom = some orig → env.romExists = false →
      ∃ rest, (patchRom env selectedRom st).1.logs = "ROM not found" ++ rest) ∧
    (reachesInvocation env selectedRom → env.processSucceeds = false →
      ∃ pre rest, (patchRom env selectedRom st).1.logs
        = pre ++ ("[ERROR]" ++ rest) ++ "\n") ∧
    (reachesInvocation env selectedRom → env.processSucceeds = true →
      env.scanSucceeds = true → env.outputFiles.length = 1 →
      env.finalCopySucceeds = true →
      ∃ pre rest, (patchRom env selectedRom st).1.logs
        = pre ++ ("[SUCCESS]" ++ rest) ++ "\n") := by
  refine ⟨?_, ?_, ?_, ?_, ?_⟩
  · intro hv
    rcases selectedRom with _ | orig
    · simp [patchRom, hfin]
    · rcases hv with h | ⟨-, h⟩ | ⟨-, h1, h2, h3⟩ | ⟨-, h1, h2, h3, h4⟩
      · exact absurd h (by simp)
      · simp [patchRom, h, hfin]
      · simp [patchRom, h1, h2, h3, hfin]
      · simp [patchRom, h1, h2, h3, h4, hfin]
  · intro hrv
    rcases selectedRom with _ | orig
    · simp [reachesInvocation] at hrv
    · obtain ⟨-, h1, h2, h3, h4⟩ := hrv
      cases h5 : env.processSucceeds <;> cases h6 : env.scanSucceeds <;>
        cases h8 : env.finalCopySucceeds <;>
          by_cases h7 : env.outputFiles.length = 1 <;>
            simp [patchRom, h1, h2, h3, h4, h5, h6, h7, h8]
  · intro orig horig hre
    subst horig
    refine ⟨": " ++ orig, ?_⟩
    rw [← String.append_assoc]
    simp [patchRom, hre]
  · intro hrv hps
    rcases selectedRom with _ | orig
    · simp [reachesInvocation] at hrv
    · obtain ⟨-, h1, h2, h3, h4⟩ := hrv
      refine ⟨st.logs ++ (Glyphs.EXCLAMATION ++ " Starting randomization") ++ "\n",
        " Randomization failed: " ++ env.processError, ?_⟩
      simp only [patchRom, h1, h2, h3, h4, hps]
      rfl
  · intro hrv hps hscan hlen hcopy
    rcases selectedRom with _ | orig
    · simp [reachesInvocation] at hrv
    · obtain ⟨-, h1, h2, h3, h4⟩ := hrv
      refine ⟨st.logs ++ (Glyphs.EXCLAMATION ++ " Starting randomization") ++ "\n",
        " Randomization completed " ++ Glyphs.HEART ++ ".\nRandomized ROM saved to: " ++
          withSuffix orig env.origSuffix
            (".randomized." ++ env.now ++ "." ++ stripDots (strToLower env.origSuffix)), ?_⟩
      simp only [patchRom, h1, h2, h3, h4, hps, hscan, hlen, hcopy]
      rfl

/-- C1 witness: a run with a selected but missing ROM ends retryable
(false, false) with a "ROM not found" log. -/
theorem patchRom_terminal_states_witness :
    (patchRom
      { romExists := false, origSuffix := ".gb", copySucceeds := true,
        configExists := true, binExists := true, now := "20240101000000",
        processSucceeds := true, processError := "", scanSucceeds := true,
        scanError := "", outputFiles := ["src.randomized.gbc"],
        finalCopySucceeds := true, finalCopyError := "" }
      (some "/mnt/mmc/ROMS/red.gb") {}).1.is_running = false ∧
    (patchRom
      { romExists := false, origSuffix := ".gb", copySucceeds := true,
        configExists := true, binExists := true, now := "20240101000000",
        processSucceeds := true, processError := "", scanSucceeds := true,
        scanError := "", outputFiles := ["src.randomized.gbc"],
        finalCopySucceeds := true, finalCopyError := "" }
      (some "/mnt/mmc/ROMS/red.gb") {}).1.is_finished = false :=
  (patchRom_terminal_states _ _ _ rfl).1
    (Or.inr (Or.inl (by constructor <;> simp)))

/-! ## C2: exception containment in the worker -/

/-- C2 counterexample: with a ROM selected and present but the copy into
the temporary directory failing, the worker body lets the exception
escape — `copyfile(orig_rom_path, src_rom_path)` sits before the
try/except block — refuting the claim that every failure path is caught. -/
theorem patchRom_copy_escape_counterexample :
    (patchRom
      { romExists := true, origSuffix := ".gb", copySucceeds := false,
        configExists := true, binExists := true, now := "20240101000000",
        processSucceeds := true, processError := "", scanSucceeds := true,
        scanError := "", outputFiles := ["src.randomized.gbc"],
        finalCopySucceeds := true, finalCopyError := "" }
      (some "/mnt/mmc/ROMS/red.gb") {is_running := true}).2 = true := by
  decide

/-- C2 (amended): the only way an exception escapes the worker body is a
failure of the pre-try copy of the source ROM into the temporary
directory (reached when a ROM is selected and exists); every other
failure — validation, the external invocation, the temp-directory scan,
the wrong output count, the final copy — is caught and funnelled into
the log. -/
theorem patchRom_escape_iff (env : PatchEnv) (selectedRom : Option String)
    (st : RandomizeROMStatus) :
    (patchRom env selectedRom st).2 = true ↔
      (selectedRom.isSome = true ∧ env.romExists = true ∧ env.copySucceeds = false) := by
  rcases selectedRom with _ | orig
  · simp [patchRom]
  · cases h1 : env.romExists <;> cases h2 : env.copySucceeds <;>
      cases h3 : env.configExists <;> cases h4 : env.binExists <;>
        cases h5 : env.processSucceeds <;> cases h6 : env.scanSucceeds <;>
          cases h8 : env.finalCopySucceeds <;>
            by_cases h7 : env.outputFiles.length = 1 <;>
              simp [patchRom, h1, h2, h3, h4, h5, h6, h7, h8]

/-! ## C3: no second worker while running or finished -/

/-- C3: from any state with the running flag or the finished flag set,
the select action on the RandomizeRom screen spawns no worker thread and
leaves the run state (flags and logs) unchanged; only going back resets
the state, so at most one run is ever active. -/
theorem randomizeNavA_no_second_run (st : RandomizeROMStatus)
    (h : st.is_running = true ∨ st.is_finished = true) :
    randomizeNavA st = (st, false) := by
  rcases h with h | h
  · simp [randomizeNavA, h]
  · simp [randomizeNavA, h]

/-- C3 witness: with a run in progress, the select action is a no-op. -/
theorem randomizeNavA_no_second_run_witness :
    randomizeNavA { is_running := true, is_finished := false, logs := "x" }
      = ({ is_running := true, is_finished := false, logs := "x" }, false) :=
  randomizeNavA_no_second_run _ (Or.inl rfl)

/-! ## C8: the step machine -/

/-- C8: the RandomizeRom → SelectRom transition fires only on the back
action while no run is in progress (back while running is a no-op); on
that transition the tree is rebuilt and selection and run state are
fully reset; from SelectRom, selecting a file node records it as the
chosen ROM and advances the step; and no other step transitions exist
(`next_step` from RandomizeRom stays at RandomizeRom, `previous_step`
from SelectRom is a no-op). -/
theorem step_machine_spec :
    (∀ (fs : FileSystem) (s : AppStatus), s.current_step = Step.RANDOMIZE_ROM →
      s.randomize_rom_status.is_running = true → randomizeNavB fs s = s) ∧
    (∀ (fs : FileSystem) (s : AppStatus), s.current_step = Step.RANDOMIZE_ROM →
      s.randomize_rom_status.is_running = false →
      (randomizeNavB fs s).current_step = Step.SELECT_ROM ∧
      (randomizeNavB fs s).select_rom_status.tree = buildTree fs ∧
      (randomizeNavB fs s).select_rom_status.current_dir = buildTree fs ∧
      (randomizeNavB fs s).select_rom_status.selections = [] ∧
      (randomizeNavB fs s).select_rom_status.selected_rom = none ∧
      (randomizeNavB fs s).select_rom_status.current_selection = 0 ∧
      (randomizeNavB fs s).randomize_rom_status
        = { is_running := false, is_finished := false, logs := "" }) ∧
    (∀ (s : AppStatus) (child : TreeNode), s.current_step = Step.SELECT_ROM →
      pyGet s.select_rom_status.current_dir.children s.select_rom_status.current_selection
        = some child →
      child.is_file = true →
      ∃ s', selectRomNav .a s = some s' ∧
        s'.current_step = Step.RANDOMIZE_ROM ∧
        s'.select_rom_status.selected_rom = some child.path) ∧
    (∀ s : AppStatus, s.current_step = Step.RANDOMIZE_ROM →
      (AppStatus.next_step s).current_step = Step.RANDOMIZE_ROM) ∧
    (∀ (fs : FileSystem) (s : AppStatus), s.current_step = Step.SELECT_ROM →
      AppStatus.previous_step fs s = s) := by
  refine ⟨?_, ?_, ?_, ?_, ?_⟩
  · intro fs s _ hr
    simp [randomizeNavB, hr]
  · intro fs s hstep hr
    simp [randomizeNavB, hr, AppStatus.previous_step, hstep]
  · intro s child hstep hget hfile
    have hnav : selectRomNav .a s = some (AppStatus.next_step
        { s with select_rom_status :=
          { s.select_rom_status with
            selections := s.select_rom_status.selections ++ [child]
            selected_rom := some child.path } }) := by
      simp only [selectRomNav, hget, hfile, if_true]
    refine ⟨_, hnav, ?_, ?_⟩
    · simp [AppStatus.next_step, hstep]
    · simp [AppStatus.next_step, hstep]
  · intro s h
    simp [AppStatus.next_step, h]
  · intro fs s h
    simp [AppStatus.previous_step, h]

/-- C8 witness: in a SelectRom state whose current directory holds one
file node, the select action transitions to RandomizeRom with that file
as the chosen ROM. -/
theorem step_machine_spec_witness :
    ∃ s', selectRomNav .a
      { current_step := .SELECT_ROM,
        exit_menu_status := {},
        select_rom_status :=
          { tree := .mk "root" false "/" [.mk "red.gb" true "/mnt/mmc/ROMS/red.gb" []],
            current_dir := .mk "root" false "/" [.mk "red.gb" true "/mnt/mmc/ROMS/red.gb" []] },
        randomize_rom_status := {} } = some s' ∧
      s'.current_step = Step.RANDOMIZE_ROM ∧
      s'.select_rom_status.selected_rom
        = some (TreeNode.path (.mk "red.gb" true "/mnt/mmc/ROMS/red.gb" [])) :=
  step_machine_spec.2.2.1 _ _ rfl rfl rfl

/-! ## C9: exit-confirm behaviour -/

/-- C9: the dedicated menu button toggles overlay visibility and resets
the highlighted option to 1; while shown, up and down both flip the
highlight between the two options (wraparound over 2); selecting
option 0 sets the confirmed-exit flag and does not hide the overlay,
selecting option 1 hides the overlay, and either selection resets the
highlight to 1. -/
theorem exitMenu_spec :
    (∀ e : ExitMenuStatus, (menuToggle e).showMenu = !e.showMenu ∧
      (menuToggle e).selected_item = 1 ∧ (menuToggle e).exit = e.exit) ∧
    (∀ e : ExitMenuStatus, e.selected_item = 0 ∨ e.selected_item = 1 →
      (exitMenuNav .up e).selected_item = 1 - e.selected_item ∧
      (exitMenuNav .down e).selected_item = 1 - e.selected_item ∧
      (exitMenuNav .up e).showMenu = e.showMenu ∧
      (exitMenuNav .up e).exit = e.exit ∧
      (exitMenuNav .down e).showMenu = e.showMenu ∧
      (exitMenuNav .down e).exit = e.exit) ∧
    (∀ e : ExitMenuStatus, e.selected_item = 0 →
      (exitMenuNav .a e).exit = true ∧
      (exitMenuNav .a e).showMenu = e.showMenu ∧
      (exitMenuNav .a e).selected_item = 1) ∧
    (∀ e : ExitMenuStatus, e.selected_item = 1 →
      (exitMenuNav .a e).showMenu = false ∧
      (exitMenuNav .a e).exit = e.exit ∧
      (exitMenuNav .a e).selected_item = 1) := by
  refine ⟨?_, ?_, ?_, ?_⟩
  · intro e
    simp [menuToggle]
  · intro e h
    rcases h with h | h <;> simp [exitMenuNav, h]
  · intro e h
    simp [exitMenuNav, h]
  · intro e h
    simp [exitMenuNav, h]

/-- C9 witness: with the overlay shown and option 0 highlighted, select
sets the confirmed-exit flag, keeps the overlay shown, and resets the
highlight to 1. -/
theorem exitMenu_spec_witness :
    (exitMenuNav .a ⟨false, true, 0⟩).exit = true ∧
    (exitMenuNav .a ⟨false, true, 0⟩).showMenu
      = (⟨false, true, 0⟩ : ExitMenuStatus).showMenu ∧
    (exitMenuNav .a ⟨false, true, 0⟩).selected_item = 1 :=
  exitMenu_spec.2.2.1 _ rfl

/-! ## C10: highlight bounds in the ROM browser -/

/-- C10: with a non-empty child list and an in-bounds highlight, up and
down keep the highlight in bounds (wraparound) and select reads a valid
child; with an empty child list, up drives the highlight to -1 and
select performs an out-of-range index access (an uncaught IndexError,
modelled as `none`). -/
theorem selectNav_bounds_spec :
    (∀ s : AppStatus, s.select_rom_status.current_dir.children ≠ [] →
      0 ≤ s.select_rom_status.current_selection →
      s.select_rom_status.current_selection
        < (s.select_rom_status.current_dir.children.length : Int) →
      (∃ s', selectRomNav .up s = some s' ∧
        0 ≤ s'.select_rom_status.current_selection ∧
        s'.select_rom_status.current_selection
          < (s.select_rom_status.current_dir.children.length : Int)) ∧
      (∃ s', selectRomNav .down s = some s' ∧
        0 ≤ s'.select_rom_status.current_selection ∧
        s'.select_rom_status.current_selection
          < (s.select_rom_status.current_dir.children.length : Int)) ∧
      (selectRomNav .a s).isSome = true) ∧
    (∀ s : AppStatus, s.select_rom_status.current_dir.children = [] →
      s.select_rom_status.current_selection = 0 →
      ∃ s', selectRomNav .up s = some s' ∧
        s'.select_rom_status.current_selection = -1) ∧
    (∀ s : AppStatus, s.select_rom_status.current_dir.children = [] →
      selectRomNav .a s = Option.none) := by
  refine ⟨?_, ?_, ?_⟩
  · intro s hne h0 hlt
    have hlen : 1 ≤ (s.select_rom_status.current_dir.children.length : Int) := by
      have := List.length_pos.mpr hne
      omega
    refine ⟨⟨_, rfl, ?_, ?_⟩, ⟨_, rfl, ?_, ?_⟩, ?_⟩
    · dsimp only [selectRomNav]
      split <;> omega
    · dsimp only [selectRomNav]
      split <;> omega
    · dsimp only [selectRomNav]
      split <;> omega
    · dsimp only [selectRomNav]
      split <;> omega
    · have hltn : s.select_rom_status.current_selection.toNat
          < s.select_rom_status.current_dir.children.length := by omega
      obtain ⟨c, hc⟩ : ∃ c, s.select_rom_status.current_dir.children.get?
          s.select_rom_status.current_selection.toNat = some c := by
        cases hg : s.select_rom_status.current_dir.children.get?
            s.select_rom_status.current_selection.toNat with
        | none =>
          rw [List.get?_eq_none] at hg
          omega
        | some c => exact ⟨c, rfl⟩
      have hpy : pyGet s.select_rom_status.current_dir.children
          s.select_rom_status.current_selection = some c := by
        unfold pyGet
        rw [if_pos h0, if_pos hlt]
        exact hc
      cases hf : c.is_file <;> simp [selectRomNav, hpy, hf]
  · intro s hch hsel
    refine ⟨_, rfl, ?_⟩
    dsimp only [selectRomNav]
    rw [hch, hsel]
    decide
  · intro s hch
    have hpy : pyGet s.select_rom_status.current_dir.children
        s.select_rom_status.current_selection = (Option.none : Option TreeNode) := by
      rw [hch]
      unfold pyGet
      simp
    simp [selectRomNav, hpy]

/-- C10 witness: with no mount root (empty child list) and the initial
highlight 0, pressing up sets the highlight to -1. -/
theorem selectNav_bounds_spec_witness :
    ∃ s', selectRomNav .up
      { current_step := .SELECT_ROM,
        exit_menu_status := {},
        select_rom_status :=
          { tree := .mk "root" false "/" [],
            current_dir := .mk "root" false "/" [] },
        randomize_rom_status := {} } = some s' ∧
      s'.select_rom_status.current_selection = -1 :=
  selectNav_bounds_spec.2.1 _ rfl rfl

/-! ## C7: pruning invariant of the generated tree -/

theorem genTree_ok (parent : String) (entries : List FSEntry) :
    ∀ n ∈ generateTree parent entries, NodeOK n := by
  match entries with
  | [] =>
    intro n hn
    simp [generateTree] at hn
  | .dir name sub :: rest =>
    intro n hn
    rw [generateTree] at hn
    rcases List.mem_append.mp hn with hl | hr
    · by_cases hemp : isEmptyChild (TreeNode.mk (Glyphs.FOLDER ++ " " ++ name ++ "/") false
          (parent ++ "/" ++ name) (generateTree (parent ++ "/" ++ name) sub))
      · rw [if_pos hemp] at hl
        simp at hl
      · rw [if_neg hemp] at hl
        rw [List.mem_singleton] at hl
        subst hl
        refine NodeOK.intro ⟨?_, ?_⟩ ?_
        · intro _ hnil
          apply hemp
          simp only [TreeNode.children] at hnil
          simp [isEmptyChild, TreeNode.is_file, TreeNode.children, hnil]
        · intro hf
          simp [TreeNode.is_file] at hf
        · intro c hc
          exact genTree_ok (parent ++ "/" ++ name) sub c hc
    · exact genTree_ok parent rest n hr
  | .file name :: rest =>
    intro n hn
    rw [generateTree] at hn
    rcases List.mem_append.mp hn with hl | hr
    · by_cases hext : strToLower (pathSuffix name) ∈ romExtensions
      · rw [if_pos hext] at hl
        rw [List.mem_singleton] at hl
        subst hl
        refine NodeOK.intro ⟨?_, ?_⟩ ?_
        · intro hf
          simp [TreeNode.is_file] at hf
        · intro _
          exact ⟨name, rfl, hext⟩
        · intro c hc
          simp [TreeNode.children] at hc
      · rw [if_neg hext] at hl
        simp at hl
    · exact genTree_ok parent rest n hr

theorem genTreeRoot_ok (fs : FileSystem) :
    ∀ n ∈ generateTreeRoot fs, NodeOK n := by
  intro n hn
  unfold generateTreeRoot at hn
  rcases List.mem_append.mp hn with h1 | h2
  · cases hsd : fs.sd1 with
    | none =>
      rw [hsd] at h1
      simp at h1
    | some entries =>
      rw [hsd] at h1
      dsimp only at h1
      by_cases hemp : isEmptyChild (TreeNode.mk (Glyphs.SD_CARD ++ " SD1/") false sd1Path
          (generateTree sd1Path entries))
      · rw [if_pos hemp] at h1
        simp at h1
      · rw [if_neg hemp] at h1
        rw [List.mem_singleton] at h1
        subst h1
        refine NodeOK.intro ⟨?_, ?_⟩ ?_
        · intro _ hnil
          apply hemp
          simp only [TreeNode.children] at hnil
          simp [isEmptyChild, TreeNode.is_file, TreeNode.children, hnil]
        · intro hf
          simp [TreeNode.is_file] at hf
        · intro c hc
          exact genTree_ok sd1Path entries c hc
  · cases hsd : fs.sd2 with
    | none =>
      rw [hsd] at h2
      simp at h2
    | some entries =>
      rw [hsd] at h2
      dsimp only at h2
      by_cases hemp : isEmptyChild (TreeNode.mk (Glyphs.SD_CARD ++ " SD2/") false sd2Path
          (generateTree sd2Path entries))
      · rw [if_pos hemp] at h2
        simp at h2
      · rw [if_neg hemp] at h2
        rw [List.mem_singleton] at h2
        subst h2
        refine NodeOK.intro ⟨?_, ?_⟩ ?_
        · intro _ hnil
          apply hemp
          simp only [TreeNode.children] at hnil
          simp [isEmptyChild, TreeNode.is_file, TreeNode.children, hnil]
        · intro hf
          simp [TreeNode.is_file] at hf
        · intro c hc
          exact genTree_ok sd2Path entries c hc

theorem inTree_nodeOK {n : TreeNode} :
    ∀ {t : TreeNode}, InTree n t → (∀ c ∈ t.children, NodeOK c) → NodeOK n := by
  intro t h
  induction h with
  | child hmem =>
    intro hch
    exact hch _ hmem
  | step hmem _ ih =>
    intro hch
    have hc := hch _ hmem
    cases hc with
    | intro g hsub => exact ih hsub

theorem nodeOK_hasFile : ∀ (n : TreeNode), NodeOK n → hasFileDescendant n = true := by
  intro n h
  match n, h with
  | .mk nm isf p children, NodeOK.intro g hch =>
    cases hisf : isf with
    | true =>
      simp [hasFileDescendant]
    | false =>
      have hne : children ≠ [] := by
        have h1 := g.1
        simp only [TreeNode.is_file, TreeNode.children, hisf] at h1
        exact h1 trivial
      match children, hne, hch with
      | c :: cs, _, hch =>
        have hc : NodeOK c := hch c (by simp [TreeNode.children])
        have hcf : hasFileDescendant c = true := nodeOK_hasFile c hc
        rw [hasFileDescendant]
        rw [Bool.false_or, List.any_eq_true]
        exact ⟨⟨c, by simp⟩, List.mem_attach _ _, hcf⟩

/-- C7 counterexample: with no existing mount root, `buildTree` returns a
synthetic root directory node with no children; that node appears in the
result (it is the result) and has zero eventual file descendants, so the
claim as stated fails for the root. -/
theorem tree_empty_root_counterexample :
    InResult (buildTree ⟨none, none⟩) (buildTree ⟨none, none⟩) ∧
    (buildTree ⟨none, none⟩).is_file = false ∧
    hasFileDescendant (buildTree ⟨none, none⟩) = false :=
  ⟨Or.inl rfl, rfl, by simp [buildTree, generateTreeRoot, hasFileDescendant]⟩

/-- C7 (amended): every node strictly inside the tree returned by
buildTree/reload_tree — that is, every node of some child list, the
synthetic root excluded — satisfies the invariant: a directory node has
at least one file somewhere beneath it, and a file node carries a name
whose suffix (case-insensitively) is one of the three ROM extensions;
the synthetic root itself may have zero file descendants when no mount
root holds any ROM. -/
theorem tree_pruning_spec (fs : FileSystem) (n : TreeNode)
    (h : InTree n (buildTree fs)) :
    (n.is_file = false → hasFileDescendant n = true) ∧
    (n.is_file = true →
      ∃ nm, n.name = Glyphs.FILE ++ " " ++ nm ∧
        strToLower (pathSuffix nm) ∈ romExtensions) := by
  have hok : NodeOK n := by
    refine inTree_nodeOK h ?_
    intro c hc
    exact genTreeRoot_ok fs c hc
  cases hok with
  | intro g hch =>
    exact ⟨fun _ => nodeOK_hasFile n (NodeOK.intro g hch), g.2⟩

/-- C7 witness: with one mount root holding a single ROM file, the SD
node inside the result is a directory node with a file beneath it. -/
theorem tree_pruning_spec_witness :
    ((TreeNode.mk (Glyphs.SD_CARD ++ " SD1/") false sd1Path
        (generateTree sd1Path [.file "red.gb"])).is_file = false →
      hasFileDescendant (TreeNode.mk (Glyphs.SD_CARD ++ " SD1/") false sd1Path
        (generateTree sd1Path [.file "red.gb"])) = true) ∧
    ((TreeNode.mk (Glyphs.SD_CARD ++ " SD1/") false sd1Path
        (generateTree sd1Path [.file "red.gb"])).is_file = true →
      ∃ nm, (TreeNode.mk (Glyphs.SD_CARD ++ " SD1/") false sd1Path
        (generateTree sd1Path [.file "red.gb"])).name = Glyphs.FILE ++ " " ++ nm ∧
        strToLower (pathSuffix nm) ∈ romExtensions) :=
  tree_pruning_spec ⟨some [.file "red.gb"], none⟩ _
    (InTree.child (by
      simp [buildTree, TreeNode.children, generateTreeRoot, isEmptyChild,
        TreeNode.is_file, generateTree]
      decide))

end PokeRand
